import Mathlib

/-!
# Verification of the e-log pod log streaming service

Shallow embedding of the DevOpsWithJcob/e-log repository (Python sources
`src/app.py`, `src/appv2.py`, `src/web-log.py`) and proofs about the claims
of its specification.

The repository contains three variants of the same Flask + kubernetes-watch
log viewer:

* `web-log.py`: single global session, no namespace allow-list, simple
  streamer that terminates on the first upstream error;
* `appv2.py`: single global session, hard-coded allow-list, reconnecting
  streamer with timestamp resumption and a Redis trailing cache;
* `app.py`: per-session state bundles (one per web session plus a dedicated
  CLI session), allow-list from the environment, simple streamer, Redis
  trailing cache with warm start on pod selection.

Concurrency is modelled sequentially: every Python statement that touches
shared state becomes an atomic step; thread-scheduling nondeterminism that
matters to a claim (whether the worker thread exits within the bounded
`join(timeout=2.0)` of `stop_log_streaming`) is exposed as an explicit
boolean oracle parameter.
-/

/-! ## Common data model -/

/-- A pod reference `{'name': ..., 'namespace': ...}` as stored in
`current_pod` by all three variants. -/
structure PodRef where
  name : String
  ns : String
deriving DecidableEq, Repr

/-- The namespace allow-list.  `appv2.py` line 32 hard-codes
`["kavosh", "secure", "bizagi"]`; `app.py` line 33 reads
`ALLOWED_NAMESPACES` from the environment with the default string
`"kavosh,secure,bizagi"` split on `","`, which yields the same list.
`web-log.py` has no allow-list at all. -/
def ALLOWED_NAMESPACES : List String := ["kavosh", "secure", "bizagi"]

/-- The sentinel pushed by every streamer to end the SSE stream. -/
def END_MARKER : String := "__END__"

/-- The queue-draining loop used by all variants to clear a log queue
(`while not q.empty(): q.get_nowait()`, e.g. `app.py` lines 308-312). -/
def clear_queue_loop : List String → List String
  | [] => []
  | _ :: rest => clear_queue_loop rest

/-- One Redis trailing-cache trim step (`app.py` lines 327-328,
`appv2.py` lines 310-311): after `rpush`, `if llen > 1000: lpop`. -/
def trim_cache (c : List String) : List String :=
  if 1000 < c.length then c.tail else c

/-- Pointwise update of the trailing-cache store (Redis keyed by
`"logs:{namespace}:{pod_name}"`, modelled as the pair
`(namespace, pod_name)`). -/
def cache_update (c : String × String → List String) (k : String × String)
    (v : List String) : String × String → List String :=
  fun k2 => if k2 = k then v else c k2

/-! ## The per-session variant `app.py` -/

/-- One per-session state bundle of `app.py` (lines 45-53): the fields of
`_sessions[sid]`, with the worker thread handle modelled as a generation
number. -/
structure SessionState where
  current_pod : Option PodRef
  log_queue : List String
  stop_flag : Bool
  stream_thread : Option Nat
deriving DecidableEq, Repr

/-- The sequential model state for one `app.py` session: the session bundle,
the shared Redis trailing cache, the set of worker threads that have been
started and have not yet run their `finally` block (`activeWorkers`), and a
fresh generation counter for spawned threads. -/
structure AppState where
  session : SessionState
  cache : String × String → List String
  activeWorkers : List Nat
  nextGen : Nat

/-- A session bundle as freshly allocated by `_get_or_create_state`
(`app.py` lines 65-75): empty queue, cleared stop event, no pod, no
worker. -/
def fresh_session : SessionState :=
  { current_pod := none, log_queue := [], stop_flag := false,
    stream_thread := none }

/-- Initial model state: fresh session, empty cache, no workers. -/
def fresh_app : AppState :=
  { session := fresh_session, cache := fun _ => [], activeWorkers := [],
    nextGen := 0 }

/-- The `finally` block of the `app.py` streamer (lines 334-337) together
with the thread `g` terminating: push `'__END__'`, clear the session's
`current_pod` (a mutation of the shared session dict, hence visible), and
remove the worker from the set of live threads. -/
def streamer_finally (st : AppState) (g : Nat) : AppState :=
  { st with
    session := { st.session with
      log_queue := st.session.log_queue ++ [END_MARKER],
      current_pod := none },
    activeWorkers := st.activeWorkers.erase g }

/-- `app.py` `stop_log_streaming` (lines 342-347): set the stop event; if
the stored thread exists and is alive, `join(timeout=2.0)` and clear the
handle.  `exited = true` models the join completing because the worker
observed the stop flag and ran its `finally` block within the timeout;
`exited = false` models the join timing out with the worker thread still
running (the handle is cleared either way). -/
def stop_log_streaming (st : AppState) (exited : Bool) : AppState :=
  let st1 : AppState :=
    { st with session := { st.session with stop_flag := true } }
  match st1.session.stream_thread with
  | none => st1
  | some g =>
      if g ∈ st1.activeWorkers then
        if exited then
          let st2 := streamer_finally st1 g
          { st2 with session := { st2.session with stream_thread := none } }
        else
          { st1 with session := { st1.session with stream_thread := none } }
      else st1

/-- `app.py` `start_log_streaming` (lines 299-315 and 339-340): reject a
disallowed namespace (print and return, session untouched); otherwise set
`current_pod`, clear the stop event, drain the session queue, delete the
shared cache entry for this pod, and spawn a fresh streamer thread. -/
def start_log_streaming (st : AppState) (pod_name ns : String) : AppState :=
  if ns ∈ ALLOWED_NAMESPACES then
    { st with
      session := { st.session with
        current_pod := some ⟨pod_name, ns⟩,
        stop_flag := false,
        log_queue := clear_queue_loop st.session.log_queue,
        stream_thread := some st.nextGen },
      cache := cache_update st.cache (ns, pod_name) [],
      activeWorkers := st.activeWorkers ++ [st.nextGen],
      nextGen := st.nextGen + 1 }
  else st

/-- Primitive operations `app.py` performs on a session's Delivery Queue. -/
inductive QueueOp
  | push (line : String)
  | clear
deriving DecidableEq, Repr

/-- Whether a queue operation is a push. -/
def QueueOp.is_push : QueueOp → Bool
  | .push _ => true
  | .clear => false

/-- Interpret one queue operation on a queue value. -/
def apply_queue_op (q : List String) : QueueOp → List String
  | .push l => q ++ [l]
  | .clear => clear_queue_loop q

/-- Interpret a list of queue operations in order. -/
def apply_queue_ops (q : List String) (ops : List QueueOp) : List String :=
  ops.foldl apply_queue_op q

/-- The queue operations `select_pod` in `app.py` performs on the session's
Delivery Queue, in program order: lines 143-145 push every cached
warm-start line, and only afterwards does `start_log_streaming` (called on
line 147) drain the queue at lines 308-312. -/
def select_pod_queue_trace (warm : List String) : List QueueOp :=
  warm.map QueueOp.push ++ [QueueOp.clear]

/-- `app.py` `select_pod` (lines 131-148): reject a namespace outside the
allow-list with a 403; otherwise stop any current worker, read the cache
entry for the pod and push every cached line into the session queue
(warm start), then call `start_log_streaming`. -/
def select_pod (st : AppState) (ns pod_name : String) (exited : Bool) :
    Except String AppState :=
  if ns ∈ ALLOWED_NAMESPACES then
    let st1 := stop_log_streaming st exited
    let warm := st1.cache (ns, pod_name)
    let st2 : AppState :=
      { st1 with
        session := { st1.session with
          log_queue :=
            apply_queue_ops st1.session.log_queue
              (warm.map QueueOp.push) } }
    Except.ok (start_log_streaming st2 pod_name ns)
  else Except.error "Namespace not allowed"

/-- Project the session state out of a `select_pod` result, falling back to
the fresh state on a rejection (only used at call sites where the
selection is known to succeed). -/
def ok_or_fresh (e : Except String AppState) : AppState :=
  match e with
  | .ok s => s
  | .error _ => fresh_app

/-- Body of the `app.py` streamer for-loop (lines 321-328) for one received
line, with the Redis key fixed at thread start: print, push into the
session queue, `rpush` into the cache and trim to 1000. -/
def streamer_body (key : String × String) (st : AppState) (line : String) :
    AppState :=
  { st with
    session := { st.session with
      log_queue := st.session.log_queue ++ [line] },
    cache := cache_update st.cache key (trim_cache (st.cache key ++ [line])) }

/-- The `app.py` streamer for-loop (lines 321-328): process upstream lines
in order, breaking out as soon as the session stop event is observed set. -/
def streamer_loop (key : String × String) (st : AppState) :
    List String → AppState
  | [] => st
  | l :: rest =>
      if st.session.stop_flag then st
      else streamer_loop key (streamer_body key st l) rest

/-- The `except ApiException` branch of the `app.py` streamer (lines
329-333): push the synthetic error message into the session queue and
`rpush` it into the cache — with no trim step. -/
def streamer_on_error (key : String × String) (st : AppState) (msg : String) :
    AppState :=
  { st with
    session := { st.session with
      log_queue := st.session.log_queue ++ [msg] },
    cache := cache_update st.cache key (st.cache key ++ [msg]) }

/-- A full run of one `app.py` worker generation `g`: the for-loop over the
upstream lines, then (when the loop was not cut short by the stop flag)
the optional `ApiException` handler, then the `finally` block.
`err = some msg` models the upstream raising after producing `lines`;
`err = none` models a normal end of the upstream stream. -/
def streamer_run (key : String × String) (st : AppState) (g : Nat)
    (lines : List String) (err : Option String) : AppState :=
  let st1 := streamer_loop key st lines
  let st2 :=
    match err with
    | some m => if st1.session.stop_flag then st1 else streamer_on_error key st1 m
    | none => st1
  streamer_finally st2 g

/-! ## The global-session reconnecting variant `appv2.py` -/

/-- The module-level mutable state of `appv2.py` (lines 22-26) that the
claims mention: `current_pod`, `log_queue`, `stop_event`, `stream_thread`
(as a generation number) plus a fresh-generation counter. -/
structure V2State where
  current_pod : Option PodRef
  log_queue : List String
  stop_flag : Bool
  stream_thread : Option Nat
  nextGen : Nat
deriving DecidableEq, Repr

/-- The initial module state of `appv2.py`. -/
def v2_fresh : V2State :=
  { current_pod := none, log_queue := [], stop_flag := false,
    stream_thread := none, nextGen := 0 }

/-- `appv2.py` `stop_log_streaming` (lines 328-334): set the stop event;
if a thread handle exists and the thread is alive (`alive`), join with a
bounded timeout and clear the handle. -/
def v2_stop_log_streaming (st : V2State) (alive : Bool) : V2State :=
  let st1 : V2State := { st with stop_flag := true }
  match st1.stream_thread with
  | none => st1
  | some _ => if alive then { st1 with stream_thread := none } else st1

/-- `appv2.py` `start_log_streaming` (lines 262-279 and 325-326): reject a
disallowed namespace (print and return); otherwise set the global
`current_pod`, clear the stop event, drain the queue, delete the cache
entry (cache omitted here — the cache behaviour is modelled once, on the
`app.py` functions, whose cache code is identical), and spawn the
streamer thread. -/
def v2_start_log_streaming (st : V2State) (pod_name ns : String) : V2State :=
  if ns ∈ ALLOWED_NAMESPACES then
    { current_pod := some ⟨pod_name, ns⟩,
      stop_flag := false,
      log_queue := clear_queue_loop st.log_queue,
      stream_thread := some st.nextGen,
      nextGen := st.nextGen + 1 }
  else st

/-- `appv2.py` `select_pod` (lines 90-109): reject a disallowed namespace
with a 403; otherwise stop the current stream, drain the queue (lines
99-103), skip any cache warm start by design, and start streaming. -/
def v2_select_pod (st : V2State) (ns pod_name : String) (alive : Bool) :
    Except String V2State :=
  if ns ∈ ALLOWED_NAMESPACES then
    let st1 := v2_stop_log_streaming st alive
    let st2 : V2State := { st1 with log_queue := clear_queue_loop st1.log_queue }
    Except.ok (v2_start_log_streaming st2 pod_name ns)
  else Except.error "Namespace not allowed"

/-- Termination of the `appv2.py` streamer thread (lines 322-323):
`log_queue.put('__END__')` followed by `current_pod = None`.  The
assignment `current_pod = None` occurs inside the nested function
`streamer`, which contains no `global` declaration of its own; the
`global current_pod` declaration on line 264 belongs to the enclosing
`start_log_streaming` scope only, so by Python scoping rules the
assignment creates a fresh local variable in `streamer` and the
module-level `current_pod` read by the `/logs` feed is left unchanged. -/
def v2_streamer_finish (st : V2State) : V2State :=
  { st with log_queue := st.log_queue ++ [END_MARKER] }

/-- Python's `line.split(' ', 1)` on the character list of the line:
nothing up to the first space, then the remainder. -/
def split_once_aux : List Char → Option (List Char × List Char)
  | [] => none
  | c :: rest =>
      if c = ' ' then some ([], rest)
      else
        match split_once_aux rest with
        | some (a, b) => some (c :: a, b)
        | none => none

/-- Python's `line.split(' ', 1)`: a two-element list when the line
contains a space, a one-element list otherwise. -/
def split_once (s : String) : List String :=
  match split_once_aux s.toList with
  | some (a, b) => [String.mk a, String.mk b]
  | none => [s]

/-- The timestamp-parsing step of the `appv2.py` streamer (lines 300-306):
`parts = line.split(' ', 1)`; when it yields two parts the first becomes
the resumption timestamp and the second the forwarded message, otherwise
the whole line is the message.  Returns `(timestamp?, message)`. -/
def v2_parse_line (line : String) : Option String × String :=
  match split_once line with
  | [ts, msg] => (some ts, msg)
  | _ => (none, line)

/-- Modelled from the spec: the spec never defines a concrete timestamp
grammar (the source never validates the token either), but its examples
use RFC3339-style upstream lines such as `"2024-01-01T00:00:00Z hello"`
(spec section 8) for the format `"<timestamp> <message>"`.  A token is
counted as a parseable timestamp when it is nonempty and made only of
digits and RFC3339 punctuation — a generous superset of real
timestamps. -/
def spec_timestamp_parseable (tok : String) : Bool :=
  tok ≠ "" &&
    tok.toList.all fun c =>
      c.isDigit || c = '-' || c = ':' || c = '.' || c = 'T' || c = 'Z' || c = '+'

/-- Whether a received line carries a parseable leading timestamp token in
the sense of `spec_timestamp_parseable`. -/
def line_has_parseable_timestamp (line : String) : Bool :=
  match split_once line with
  | [ts, _] => spec_timestamp_parseable ts
  | _ => false

/-! ## The global-session simple variant `web-log.py` -/

/-- The module-level state of `web-log.py` (lines 19-24), extended with the
trace of `(namespace, pod)` follow requests the spawned streamer issues to
the upstream source (`w.stream(v1.read_namespaced_pod_log, name=...,
namespace=...)`, line 213). -/
structure WebLogState where
  current_pod : Option PodRef
  log_queue : List String
  stop_flag : Bool
  stream_thread : Option Nat
  nextGen : Nat
  upstream_requests : List (String × String)
deriving DecidableEq, Repr

/-- The initial module state of `web-log.py`. -/
def weblog_fresh : WebLogState :=
  { current_pod := none, log_queue := [], stop_flag := false,
    stream_thread := none, nextGen := 0, upstream_requests := [] }

/-- `web-log.py` `stop_log_streaming` (lines 230-236). -/
def weblog_stop_log_streaming (st : WebLogState) (alive : Bool) : WebLogState :=
  let st1 : WebLogState := { st with stop_flag := true }
  match st1.stream_thread with
  | none => st1
  | some _ => if alive then { st1 with stream_thread := none } else st1

/-- `web-log.py` `start_log_streaming` (lines 196-228): no namespace check
of any kind; set `current_pod`, clear the stop event, drain the queue and
spawn the streamer, which opens an upstream follow for exactly the
requested `(namespace, pod_name)`. -/
def weblog_start_log_streaming (st : WebLogState) (pod_name ns : String) :
    WebLogState :=
  { current_pod := some ⟨pod_name, ns⟩,
    stop_flag := false,
    log_queue := clear_queue_loop st.log_queue,
    stream_thread := some st.nextGen,
    nextGen := st.nextGen + 1,
    upstream_requests := st.upstream_requests ++ [(ns, pod_name)] }

/-- `web-log.py` `select_pod` (lines 69-75): stop the current stream and
start streaming the requested pod, answering `"OK"` — with no allow-list
check anywhere on the path. -/
def weblog_select_pod (st : WebLogState) (ns pod_name : String)
    (alive : Bool) : WebLogState × String :=
  (weblog_start_log_streaming (weblog_stop_log_streaming st alive) pod_name ns,
   "OK")

/-! ## Listing endpoints of `app.py` -/

/-- `app.py` `list_pods` (lines 268-285); `cluster` models the pods the
Kubernetes API would return.  A concrete namespace outside the allow-list
yields the empty list; without a namespace the result is filtered to
allowed namespaces. -/
def list_pods (cluster : List PodRef) (ns : Option String) : List PodRef :=
  match ns with
  | some n =>
      if n ∈ ALLOWED_NAMESPACES then cluster.filter fun p => p.ns = n
      else []
  | none => cluster.filter fun p => p.ns ∈ ALLOWED_NAMESPACES

/-- `app.py` `/pods/<namespace>` (lines 122-129): 403 for a namespace
outside the allow-list, otherwise the pods listed by `list_pods`. -/
def get_pods_in_namespace (cluster : List PodRef) (ns : String) :
    Except String (List PodRef) :=
  if ns ∈ ALLOWED_NAMESPACES then Except.ok (list_pods cluster (some ns))
  else Except.error "Namespace not allowed"

/-- `app.py` `/namespaces` (lines 111-120): the cluster's namespaces
filtered down to the allow-list. -/
def get_namespaces (clusterNs : List String) : List String :=
  clusterNs.filter fun n => n ∈ ALLOWED_NAMESPACES

/-! ## The SSE event feed adapter (`generate`) -/

/-- The synthetic events the feed adapter can emit on an empty-queue poll
(`appv2.py` lines 53-65, `app.py` lines 94-106, `web-log.py` lines
45-57). -/
inductive FeedEvent
  | no_pod_msg
  | waiting
  | heartbeat
deriving DecidableEq, Repr

/-- The loop-local state of one `generate` connection:
`last_yield_time` and `has_yielded_waiting`. -/
structure FeedState where
  last_yield : Nat
  has_waited : Bool
deriving DecidableEq, Repr

/-- One `queue.Empty` iteration of `generate` (`appv2.py` lines 53-65) at
time `now`, parameterised by the heartbeat threshold (10 in `appv2.py` and
`app.py`, 15 in `web-log.py`): if no pod is selected emit the no-pod
message; else if the waiting flag is unset emit the waiting message once
and set it; else if more than `threshold` has elapsed since the last
emission emit a heartbeat comment. -/
def generate_empty_step (threshold : Nat) (pod : Option PodRef)
    (fs : FeedState) (now : Nat) : FeedState × Option FeedEvent :=
  if pod.isNone then ({ fs with last_yield := now }, some .no_pod_msg)
  else if !fs.has_waited then
    ({ last_yield := now, has_waited := true }, some .waiting)
  else if threshold < now - fs.last_yield then
    ({ fs with last_yield := now }, some .heartbeat)
  else (fs, none)

/-- A run of `generate` over an idle period: every poll at the listed times
comes back `queue.Empty` while the selected pod stays fixed; the output is
the list of emitted events with their emission times. -/
def generate_idle_run (threshold : Nat) (pod : Option PodRef)
    (fs : FeedState) : List Nat → List (Nat × FeedEvent)
  | [] => []
  | t :: ts =>
      match generate_empty_step threshold pod fs t with
      | (fs2, some e) => (t, e) :: generate_idle_run threshold pod fs2 ts
      | (fs2, none) => generate_idle_run threshold pod fs2 ts

/-- The continuation condition of the `generate` loop in `app.py` (line
86): the connected feed adapter keeps polling exactly while the session's
stop event is not set. -/
def adapter_loop_continues (s : SessionState) : Bool :=
  !s.stop_flag

/-! ## Claim-specific definitions -/

/-- The ordering property claimed for the queue operations of a pod
selection: every clear precedes every warm-start push. -/
def clear_before_pushes (ops : List QueueOp) : Prop :=
  ∀ i j : Fin ops.length, ops.get i = QueueOp.clear →
    (ops.get j).is_push = true → (i : Nat) < (j : Nat)

/-- A session state whose shared cache holds one line for pod
`("kavosh", "p")`, as left by an earlier run of that pod. -/
def stC1 : AppState :=
  { fresh_app with
    cache := cache_update (fun _ => []) ("kavosh", "p") ["w1"] }

/-- The state reached from a fresh session by one successful web selection
of pod `p` in namespace `kavosh` (worker generation 0 running). -/
def st_after_select : AppState :=
  ok_or_fresh (select_pod fresh_app "kavosh" "p" true)

/-- A fresh session that merely has something in its queue and no worker:
the target of a `stop()` call on a session with no active worker. -/
def stC9 : AppState :=
  { fresh_app with session := { fresh_session with log_queue := ["x"] } }

/-- Primitive operations `app.py` performs on one Trailing Cache entry:
the warm-start `lrange` read, the `delete`, and the worker's trimmed
`rpush` appends. -/
inductive CacheOp
  | read
  | del
  | append (line : String)
deriving DecidableEq, Repr

/-- Whether a cache operation is a worker append. -/
def CacheOp.is_append : CacheOp → Bool
  | .append _ => true
  | _ => false

/-- The operations `app.py` performs on the Trailing Cache entry of the
selected pod, in program order: the warm-start read (`lrange`, line 142),
the delete inside `start_log_streaming` (line 315), then the appends of
the one worker generation spawned by the selection (lines 326-328). -/
def select_cache_trace (ls : List String) : List CacheOp :=
  CacheOp.read :: CacheOp.del :: ls.map CacheOp.append

/-- Interpret cache operations on one cache entry: reads leave it alone,
delete empties it, a worker append is `rpush` followed by the trim step. -/
def run_cache_ops (c : List String) : List CacheOp → List String
  | [] => c
  | CacheOp.read :: rest => run_cache_ops c rest
  | CacheOp.del :: rest => run_cache_ops [] rest
  | CacheOp.append l :: rest => run_cache_ops (trim_cache (c ++ [l])) rest

/-- The operations of the `app.py` Stream Controller surface together with
worker lifecycle steps, for exploring arbitrary interleavings:
`sel` = a `/select_pod` request, `stp` = a `stop_log_streaming` call,
`fin` = a worker thread reaching its `finally` block on its own,
`wrk` = a full worker generation run. -/
inductive CtrlOp
  | sel (ns pod : String)
  | stp
  | fin (g : Nat)
  | wrk (lines : List String) (err : Option String)
deriving Repr

/-- The Redis key a worker closes over, derived from the session's selected
pod at spawn time. -/
def worker_key (st : AppState) : String × String :=
  match st.session.current_pod with
  | some p => (p.ns, p.name)
  | none => ("", "")

/-- One controller or worker step.  The `sel` and `stp` steps run with the
`exited = true` oracle: the stopped worker always exits within the bounded
join — the hypothesis under which the single-flight claim is provable. -/
def ctrl_step (st : AppState) : CtrlOp → AppState
  | .sel ns pod =>
      match select_pod st ns pod true with
      | .ok s => s
      | .error _ => st
  | .stp => stop_log_streaming st true
  | .fin g => if g ∈ st.activeWorkers then streamer_finally st g else st
  | .wrk lines err =>
      match st.session.stream_thread with
      | some g =>
          if g ∈ st.activeWorkers then streamer_run (worker_key st) st g lines err
          else st
      | none => st

/-- Run a sequence of controller/worker steps. -/
def run_ctrl (st : AppState) : List CtrlOp → AppState
  | [] => st
  | op :: rest => run_ctrl (ctrl_step st op) rest

/-- The single-flight invariant: no live worker, or exactly one live worker
whose generation is the stored thread handle. -/
def single_flight_inv (st : AppState) : Prop :=
  st.activeWorkers = [] ∨
    ∃ g, st.activeWorkers = [g] ∧ st.session.stream_thread = some g

/-! ## Helper lemmas -/

@[simp]
theorem clear_queue_loop_eq_nil (q : List String) : clear_queue_loop q = [] := by
  induction q with
  | nil => rfl
  | cons a rest ih => simpa [clear_queue_loop] using ih

@[simp]
theorem cache_update_same (c : String × String → List String)
    (k : String × String) (v : List String) : cache_update c k v k = v := by
  simp [cache_update]

theorem streamer_body_session (key : String × String) (st : AppState)
    (l : String) :
    (streamer_body key st l).session.log_queue = st.session.log_queue ++ [l] ∧
    (streamer_body key st l).session.stop_flag = st.session.stop_flag ∧
    (streamer_body key st l).session.current_pod = st.session.current_pod ∧
    (streamer_body key st l).session.stream_thread = st.session.stream_thread ∧
    (streamer_body key st l).activeWorkers = st.activeWorkers ∧
    (streamer_body key st l).cache key = trim_cache (st.cache key ++ [l]) := by
  simp [streamer_body]

/-- Full characterisation of a run of the `app.py` streamer for-loop from a
state whose stop flag is clear: the queue grows by exactly the upstream
lines in order and the cache entry is folded through append-and-trim. -/
theorem streamer_loop_spec (key : String × String) (lines : List String) :
    ∀ st : AppState, st.session.stop_flag = false →
    (streamer_loop key st lines).session.log_queue
        = st.session.log_queue ++ lines ∧
    (streamer_loop key st lines).session.stop_flag = false ∧
    (streamer_loop key st lines).session.current_pod
        = st.session.current_pod ∧
    (streamer_loop key st lines).session.stream_thread
        = st.session.stream_thread ∧
    (streamer_loop key st lines).activeWorkers = st.activeWorkers ∧
    (streamer_loop key st lines).cache key
        = List.foldl (fun c l => trim_cache (c ++ [l])) (st.cache key) lines := by
  induction lines with
  | nil => intro st h; simp [streamer_loop, h]
  | cons l rest ih =>
      intro st h
      have hb := streamer_body_session key st l
      have ihb := ih (streamer_body key st l) (by rw [hb.2.1]; exact h)
      simp only [streamer_loop, h, if_neg, Bool.false_eq_true, not_false_iff,
        ite_false]
      refine ⟨?_, ihb.2.1, ?_, ?_, ?_, ?_⟩
      · rw [ihb.1, hb.1, List.append_assoc]; rfl
      · rw [ihb.2.2.1, hb.2.2.1]
      · rw [ihb.2.2.2.1, hb.2.2.2.1]
      · rw [ihb.2.2.2.2.1, hb.2.2.2.2.1]
      · rw [ihb.2.2.2.2.2, hb.2.2.2.2.2]; rfl

/-- The streamer loop never touches the worker bookkeeping or the thread
handle, whatever the stop flag says. -/
theorem streamer_loop_workers (key : String × String) (lines : List String) :
    ∀ st : AppState,
    (streamer_loop key st lines).activeWorkers = st.activeWorkers ∧
    (streamer_loop key st lines).session.stream_thread
        = st.session.stream_thread := by
  induction lines with
  | nil => intro st; exact ⟨rfl, rfl⟩
  | cons l rest ih =>
      intro st
      by_cases h : st.session.stop_flag
      · simp [streamer_loop, h]
      · simp only [streamer_loop, h, if_neg, Bool.false_eq_true,
          not_false_iff, ite_false]
        have := ih (streamer_body key st l)
        simpa [streamer_body] using this

/-- Folding append-and-trim over at most the remaining capacity performs no
eviction at all. -/
theorem foldl_trim_of_le (lines : List String) :
    ∀ c : List String, c.length + lines.length ≤ 1000 →
    List.foldl (fun c l => trim_cache (c ++ [l])) c lines = c ++ lines := by
  induction lines with
  | nil => intro c _; simp
  | cons l rest ih =>
      intro c h
      simp only [List.length_cons] at h
      have h1 : trim_cache (c ++ [l]) = c ++ [l] := by
        have hn : ¬ 1000 < (c ++ [l]).length := by
          simp only [List.length_append, List.length_cons, List.length_nil]
          omega
        rw [trim_cache, if_neg hn]
      simp only [List.foldl_cons, h1]
      have h2 : (c ++ [l]).length + rest.length ≤ 1000 := by
        simp only [List.length_append, List.length_cons, List.length_nil]
        omega
      rw [ih (c ++ [l]) h2, List.append_assoc]
      rfl

/-- Folding append-and-trim preserves being a suffix: starting from a
suffix of `pre`, the result is a suffix of `pre ++ lines`. -/
theorem foldl_trim_suffix (lines : List String) :
    ∀ c pre : List String, c <:+ pre →
    List.foldl (fun c l => trim_cache (c ++ [l])) c lines <:+ pre ++ lines := by
  induction lines with
  | nil => intro c pre h; simpa using h
  | cons l rest ih =>
      intro c pre h
      obtain ⟨t, ht⟩ := h
      have h1 : c ++ [l] <:+ pre ++ [l] :=
        ⟨t, by rw [← List.append_assoc, ht]⟩
      have h2 : trim_cache (c ++ [l]) <:+ pre ++ [l] := by
        by_cases hlen : 1000 < (c ++ [l]).length
        · have heq : trim_cache (c ++ [l]) = (c ++ [l]).tail := by
            rw [trim_cache, if_pos hlen]
          rw [heq]
          exact (List.tail_suffix (c ++ [l])).trans h1
        · have heq : trim_cache (c ++ [l]) = c ++ [l] := by
            rw [trim_cache, if_neg hlen]
          rw [heq]; exact h1
      have := ih (trim_cache (c ++ [l])) (pre ++ [l]) h2
      simpa [List.append_assoc] using this

/-- With the stop flag already set, the streamer for-loop breaks before
processing any line. -/
theorem streamer_loop_of_stop (key : String × String) (st : AppState)
    (h : st.session.stop_flag = true) :
    ∀ lines : List String, streamer_loop key st lines = st := by
  intro lines
  cases lines with
  | nil => rfl
  | cons l rest => simp [streamer_loop, h]

/-- A worker run leaves the bookkeeping as the loop and error handler found
it and then erases its own generation in the `finally` block. -/
theorem streamer_run_workers (key : String × String) (st : AppState)
    (g : Nat) (lines : List String) (err : Option String) :
    (streamer_run key st g lines err).activeWorkers
        = st.activeWorkers.erase g := by
  unfold streamer_run
  have hw := streamer_loop_workers key lines st
  cases err with
  | none => simp [streamer_finally, hw.1]
  | some m =>
      by_cases hf : (streamer_loop key st lines).session.stop_flag
      · simp [hf, streamer_finally, hw.1]
      · simp [hf, streamer_finally, streamer_on_error, hw.1]

/-- Interpreting a block of worker appends is the append-and-trim fold. -/
theorem run_cache_ops_map_append (ls : List String) :
    ∀ c : List String, run_cache_ops c (ls.map CacheOp.append)
      = List.foldl (fun c l => trim_cache (c ++ [l])) c ls := by
  induction ls with
  | nil => intro c; rfl
  | cons l rest ih => intro c; simp only [List.map_cons, run_cache_ops,
      List.foldl_cons, ih]

/-- After a `stop_log_streaming` with a completing join, no worker of the
session is live (given the single-flight invariant held before). -/
theorem stop_true_active_nil (st : AppState) (h : single_flight_inv st) :
    (stop_log_streaming st true).activeWorkers = [] := by
  rcases h with h0 | ⟨g, hg, hth⟩
  · unfold stop_log_streaming
    cases hth : st.session.stream_thread with
    | none => simpa [hth] using h0
    | some g => simp [hth, h0, streamer_finally]
  · unfold stop_log_streaming
    simp [hth, hg, streamer_finally]

/-- Every controller or worker step preserves the single-flight invariant
when stopped workers always exit within the bounded join. -/
theorem ctrl_step_inv (st : AppState) (op : CtrlOp)
    (h : single_flight_inv st) : single_flight_inv (ctrl_step st op) := by
  cases op with
  | sel ns pod =>
      by_cases hns : ns ∈ ALLOWED_NAMESPACES
      · have hstop := stop_true_active_nil st h
        simp only [ctrl_step, select_pod, hns, if_pos]
        right
        refine ⟨(stop_log_streaming st true).nextGen, ?_, ?_⟩ <;>
          simp [start_log_streaming, hns, hstop]
      · simpa [ctrl_step, select_pod, hns] using h
  | stp =>
      exact Or.inl (stop_true_active_nil st h)
  | fin g =>
      simp only [ctrl_step]
      by_cases hg : g ∈ st.activeWorkers
      · rcases h with h0 | ⟨g2, hg2, hth⟩
        · rw [h0] at hg; simp at hg
        · rw [hg2] at hg
          simp only [List.mem_singleton] at hg
          subst hg
          left
          simp [streamer_finally, hg2]
      · simpa [hg] using h
  | wrk lines err =>
      simp only [ctrl_step]
      cases hth : st.session.stream_thread with
      | none => exact h
      | some g =>
          by_cases hg : g ∈ st.activeWorkers
          · rcases h with h0 | ⟨g2, hg2, hth2⟩
            · rw [h0] at hg; simp at hg
            · rw [hth] at hth2
              have hgg : g2 = g := by
                simpa using hth2.symm
              subst hgg
              left
              simp only [hg, if_pos]
              rw [streamer_run_workers, hg2]
              simp
          · simpa [hg] using h

/-- Running any step sequence from the invariant keeps the invariant. -/
theorem run_ctrl_inv (ops : List CtrlOp) :
    ∀ st : AppState, single_flight_inv st → single_flight_inv (run_ctrl st ops) := by
  induction ops with
  | nil => intro st h; exact h
  | cons op rest ih =>
      intro st h
      exact ih (ctrl_step st op) (ctrl_step_inv st op h)

/-! ## Claims -/

/-- C1: the claim says `select_pod` clears the session's Delivery Queue
before pushing any cache warm-start line.  In `app.py` the order is
reversed: with one cached line `"w1"` the queue trace is
`[push "w1", clear]`, so the clear does not precede the push, and the
warm-start line pushed at line 145 is destroyed by the queue drain inside
`start_log_streaming` — a full selection on a session with a cached entry
ends with an empty queue instead of the seeded one. -/
theorem c1_warm_start_cleared_after_push :
    ¬ clear_before_pushes (select_pod_queue_trace ["w1"]) ∧
    stC1.cache ("kavosh", "p") = ["w1"] ∧
    (ok_or_fresh (select_pod stC1 "kavosh" "p" true)).session.log_queue = [] ∧
    apply_queue_ops ["old"] (select_pod_queue_trace ["w1"]) = [] := by
  refine ⟨?_, by decide, by decide, by decide⟩
  intro h
  have := h ⟨1, by decide⟩ ⟨0, by decide⟩ (by decide) (by decide)
  simp at this

/-- C4 counterexample: the `web-log.py` variant's `select_pod` entry point
accepts the namespace `"default"`, which is outside the allow-list, and
silently passes it through: it answers `"OK"`, records the pod as
selected, and opens an upstream follow for the disallowed namespace. -/
theorem c4_weblog_bypasses_allow_list_cex :
    "default" ∉ ALLOWED_NAMESPACES ∧
    (weblog_select_pod weblog_fresh "default" "p" true).2 = "OK" ∧
    ("default", "p") ∈
      (weblog_select_pod weblog_fresh "default" "p" true).1.upstream_requests ∧
    (weblog_select_pod weblog_fresh "default" "p" true).1.current_pod
        = some ⟨"p", "default"⟩ := by
  refine ⟨by decide, by decide, ?_, by decide⟩
  decide

/-- C4 amended: in the `app.py` and `appv2.py` variants every entry point
that accepts a namespace rejects one outside the allow-list (`select_pod`
with a 403-equivalent error, pod listing with a 403-equivalent error or an
empty result, namespace listing by filtering, and `start_log_streaming`
by refusing to start); the `web-log.py` variant, however, performs no
allow-list check at all and passes any namespace through (see the
counterexample). -/
theorem c4_allow_list_enforced_in_app_variants (ns : String)
    (h : ns ∉ ALLOWED_NAMESPACES) :
    (∀ (st : AppState) (pod : String) (e : Bool),
        select_pod st ns pod e = Except.error "Namespace not allowed") ∧
    (∀ cluster : List PodRef,
        get_pods_in_namespace cluster ns
          = Except.error "Namespace not allowed") ∧
    (∀ clusterNs : List String, ns ∉ get_namespaces clusterNs) ∧
    (∀ cluster : List PodRef, list_pods cluster (some ns) = []) ∧
    (∀ (st : AppState) (pod : String), start_log_streaming st pod ns = st) ∧
    (∀ (st : V2State) (pod : String) (a : Bool),
        v2_select_pod st ns pod a = Except.error "Namespace not allowed") := by
  refine ⟨?_, ?_, ?_, ?_, ?_, ?_⟩ <;> intros <;>
    simp [select_pod, get_pods_in_namespace, get_namespaces, list_pods,
      start_log_streaming, v2_select_pod, h]

/-- C4 witness: the amended rejection facts evaluated at the concrete
disallowed namespace `"default"`. -/
theorem c4_witness :
    select_pod fresh_app "default" "p" true
        = Except.error "Namespace not allowed" ∧
    get_pods_in_namespace [] "default"
        = Except.error "Namespace not allowed" ∧
    "default" ∉ get_namespaces ["default"] ∧
    list_pods [] (some "default") = [] ∧
    start_log_streaming fresh_app "p" "default" = fresh_app ∧
    v2_select_pod v2_fresh "default" "p" true
        = Except.error "Namespace not allowed" := by
  have h := c4_allow_list_enforced_in_app_variants "default" (by decide)
  exact ⟨h.1 fresh_app "p" true, h.2.1 [], h.2.2.1 ["default"],
    h.2.2.2.1 [], h.2.2.2.2.1 fresh_app "p", h.2.2.2.2.2 v2_fresh "p" true⟩

/-- C6: the claim says that when a worker terminates it appends the
`EndMarker` and then clears the current-pod reference, so the feed adapter
observes a null current pod.  In `appv2.py` the assignment
`current_pod = None` on line 323 sits in the nested `streamer` function
without its own `global` declaration, so it binds a local and the
module-level `current_pod` read by the `/logs` feed stays set to the
selected pod after the worker exits.  The session-dict variant in `app.py`
(line 337) does clear the reference, as the last conjunct shows. -/
theorem c6_v2_current_pod_not_cleared :
    (v2_streamer_finish
        { v2_start_log_streaming v2_fresh "p" "kavosh" with
          stop_flag := true }).current_pod = some ⟨"p", "kavosh"⟩ ∧
    (v2_streamer_finish
        { v2_start_log_streaming v2_fresh "p" "kavosh" with
          stop_flag := true }).log_queue.getLast? = some END_MARKER ∧
    (streamer_finally st_after_select 0).session.current_pod = none := by
  refine ⟨by decide, by decide, by decide⟩

/-- C9 counterexample: calling `stop()` on a session with no active worker
is not a no-op.  `stop_log_streaming` unconditionally sets the session's
stop event (line 344), and the connected feed adapter's loop condition
(`while not state.stop_event.is_set()`, line 86) flips from continuing to
terminating, so the adapter closes with a "stream ended" event instead of
keeping the feed open. -/
theorem c9_stop_raises_flag_cex :
    stC9.session.stream_thread = none ∧
    stop_log_streaming stC9 true ≠ stC9 ∧
    stC9.session.stop_flag = false ∧
    (stop_log_streaming stC9 true).session.stop_flag = true ∧
    adapter_loop_continues stC9.session = true ∧
    adapter_loop_continues (stop_log_streaming stC9 true).session = false := by
  refine ⟨by decide, ?_, by decide, by decide, by decide, by decide⟩
  intro h
  exact absurd (congrArg (fun a => a.session.stop_flag) h) (by decide)

/-- Helper: the last element of a list ending in a singleton. -/
theorem getLast?_append_singleton (l : List String) (a : String) :
    (l ++ [a]).getLast? = some a := by
  exact List.getLast?_concat l

/-- C2 counterexample: from a fresh session, select a pod (worker 0
starts), then call `stop()` with the worker failing to exit within the
2-second join, then immediately `select()` again.  `stop()` clears the
handle anyway, and the new selection clears the stop event and spawns
worker 1 while worker 0 is still running: two simultaneously active
workers for the same session. -/
theorem c2_two_active_workers_cex :
    (ok_or_fresh (select_pod (stop_log_streaming st_after_select false)
        "kavosh" "q" false)).activeWorkers = [0, 1] ∧
    (ok_or_fresh (select_pod (stop_log_streaming st_after_select false)
        "kavosh" "q" false)).activeWorkers.length = 2 := by
  refine ⟨by decide, by decide⟩

/-- C2 amended: single-flight holds provided every stopped worker exits
within `stop()`'s bounded join (the `exited = true` oracle baked into
`ctrl_step`): any sequence of selections, stops and worker terminations
from a fresh session leaves at most one active worker.  When the join
times out instead, `select()` clears the stop signal and starts a second
worker while the first is still running (see the counterexample). -/
theorem c2_single_flight_when_join_completes (ops : List CtrlOp) :
    (run_ctrl fresh_app ops).activeWorkers.length ≤ 1 := by
  have h := run_ctrl_inv ops fresh_app (Or.inl rfl)
  rcases h with h0 | ⟨g, hg, _⟩
  · simp [h0]
  · simp [hg]

/-- C3 counterexample: on an upstream error the `app.py` worker appends the
synthetic error line between the upstream lines and the `EndMarker`, so
the appended sequence is not exactly the upstream lines followed by the
`EndMarker` as the claim states. -/
theorem c3_error_line_before_end_cex :
    (streamer_run ("kavosh", "p") st_after_select 0 ["a"]
        (some "Error streaming logs: boom")).session.log_queue
      = ["a", "Error streaming logs: boom", END_MARKER] ∧
    (["a", "Error streaming logs: boom", END_MARKER] : List String)
      ≠ ["a", END_MARKER] := by
  refine ⟨by decide, by decide⟩

/-- C3 amended: one worker generation appends the upstream lines it
received in order, then — only on an upstream error — one synthetic error
line, then exactly one `EndMarker`, which is always its last append; when
the stop signal is raised mid-stream the worker appends exactly the lines
processed before the signal and then the `EndMarker`, ignoring all later
upstream lines. -/
theorem c3_worker_appends_lines_error_end (key : String × String)
    (st : AppState) (g : Nat) (lines : List String) (err : Option String)
    (hstop : st.session.stop_flag = false)
    (hl : END_MARKER ∉ lines) (he : ∀ m ∈ err, m ≠ END_MARKER) :
    (streamer_run key st g lines err).session.log_queue
        = st.session.log_queue ++ (lines ++ err.toList ++ [END_MARKER]) ∧
    (lines ++ err.toList ++ [END_MARKER]).count END_MARKER = 1 ∧
    (lines ++ err.toList ++ [END_MARKER]).getLast? = some END_MARKER ∧
    (∀ post : List String,
      (streamer_finally (streamer_loop key
          { streamer_loop key st lines with
            session := { (streamer_loop key st lines).session with
              stop_flag := true } } post) g).session.log_queue
        = st.session.log_queue ++ (lines ++ [END_MARKER])) := by
  have h1 := streamer_loop_spec key lines st hstop
  have h2 : END_MARKER ∉ err.toList := by
    intro hmem
    exact he END_MARKER (Option.mem_toList.mp hmem) rfl
  refine ⟨?_, ?_, ?_, ?_⟩
  · unfold streamer_run
    cases err with
    | none => simp [streamer_finally, h1.1, List.append_assoc]
    | some m =>
        simp [h1.2.1, streamer_on_error, streamer_finally, h1.1,
          List.append_assoc]
  · simp [List.count_append, List.count_eq_zero.mpr hl,
      List.count_eq_zero.mpr h2]
  · exact getLast?_append_singleton _ _
  · intro post
    rw [streamer_loop_of_stop key _ rfl post]
    simp [streamer_finally, h1.1, List.append_assoc]

/-- C3 witness: the amended append characterisation evaluated for one
upstream line and an upstream error. -/
theorem c3_witness :
    (streamer_run ("kavosh", "p") fresh_app 0 ["a"]
        (some "e")).session.log_queue
      = fresh_app.session.log_queue
          ++ (["a"] ++ (some "e").toList ++ [END_MARKER]) ∧
    (["a"] ++ (some "e").toList ++ [END_MARKER]).count END_MARKER = 1 ∧
    (["a"] ++ (some "e").toList ++ [END_MARKER]).getLast? = some END_MARKER ∧
    (∀ post : List String,
      (streamer_finally (streamer_loop ("kavosh", "p")
          { streamer_loop ("kavosh", "p") fresh_app ["a"] with
            session := { (streamer_loop ("kavosh", "p")
                fresh_app ["a"]).session with
              stop_flag := true } } post) 0).session.log_queue
        = fresh_app.session.log_queue ++ (["a"] ++ [END_MARKER])) :=
  c3_worker_appends_lines_error_end ("kavosh", "p") fresh_app 0 ["a"]
    (some "e") rfl (by decide) (by simp [END_MARKER])

/-- C5 counterexample: after a worker fills the cache entry to exactly the
cap of 1000 lines, the synthetic error-line append of the `except` branch
(line 333) performs no trim, leaving the entry at 1001 lines — the cap is
exceeded exactly where the claim includes synthetic error lines. -/
theorem c5_error_append_untrimmed_cex :
    (streamer_loop ("kavosh", "p") st_after_select
        (List.replicate 1000 "x")).cache ("kavosh", "p")
      = List.replicate 1000 "x" ∧
    ((streamer_on_error ("kavosh", "p")
        (streamer_loop ("kavosh", "p") st_after_select
          (List.replicate 1000 "x"))
        "Error streaming logs: boom").cache ("kavosh", "p")).length
      = 1001 := by
  have hflag : st_after_select.session.stop_flag = false := by decide
  have hcache : st_after_select.cache ("kavosh", "p") = [] := by decide
  have h := streamer_loop_spec ("kavosh", "p") (List.replicate 1000 "x")
    st_after_select hflag
  have h1 : (streamer_loop ("kavosh", "p") st_after_select
      (List.replicate 1000 "x")).cache ("kavosh", "p")
      = List.replicate 1000 "x" := by
    rw [h.2.2.2.2.2, hcache,
      foldl_trim_of_le (List.replicate 1000 "x") []
        (by simp only [List.length_replicate, List.length_nil]; omega)]
    rw [List.nil_append]
  refine ⟨h1, ?_⟩
  simp only [streamer_on_error, cache_update_same, h1, List.length_append,
    List.length_replicate, List.length_cons, List.length_nil]

/-- C5 amended: the worker's normal-path append (`rpush` then conditional
`lpop`) does maintain the 1000-line cap with FIFO eviction: from an entry
within the cap the new length stays within the cap, an append at exactly
1000 lines evicts exactly the oldest line, and an append below the cap
evicts nothing.  Only the error-path append lacks the trim (see the
counterexample). -/
theorem c5_normal_append_fifo_cap (key : String × String) (st : AppState)
    (l : String) (h : (st.cache key).length ≤ 1000) :
    ((streamer_body key st l).cache key).length ≤ 1000 ∧
    ((st.cache key).length = 1000 →
      (streamer_body key st l).cache key = (st.cache key).tail ++ [l]) ∧
    ((st.cache key).length < 1000 →
      (streamer_body key st l).cache key = st.cache key ++ [l]) := by
  have hc : (streamer_body key st l).cache key
      = trim_cache (st.cache key ++ [l]) := by
    simp [streamer_body]
  refine ⟨?_, ?_, ?_⟩
  · rw [hc]
    unfold trim_cache
    split
    · rw [List.length_tail]
      simp only [List.length_append, List.length_cons, List.length_nil]
      omega
    · rename_i hle
      simp only [List.length_append, List.length_cons, List.length_nil,
        not_lt] at hle ⊢
      omega
  · intro h1000
    have hgt : 1000 < (st.cache key ++ [l]).length := by
      simp [List.length_append, h1000]
    rw [hc, trim_cache, if_pos hgt]
    cases hc2 : st.cache key with
    | nil => rw [hc2] at h1000; simp at h1000
    | cons a t => rfl
  · intro hlt
    have hn : ¬ 1000 < (st.cache key ++ [l]).length := by
      simp only [List.length_append, List.length_cons, List.length_nil,
        not_lt]
      omega
    rw [hc, trim_cache, if_neg hn]

/-- C5 witness: the FIFO-cap facts evaluated on a one-line cache entry. -/
theorem c5_witness :
    ((streamer_body ("kavosh", "p") stC1 "y").cache ("kavosh", "p")).length
        ≤ 1000 ∧
    ((stC1.cache ("kavosh", "p")).length = 1000 →
      (streamer_body ("kavosh", "p") stC1 "y").cache ("kavosh", "p")
        = (stC1.cache ("kavosh", "p")).tail ++ ["y"]) ∧
    ((stC1.cache ("kavosh", "p")).length < 1000 →
      (streamer_body ("kavosh", "p") stC1 "y").cache ("kavosh", "p")
        = stC1.cache ("kavosh", "p") ++ ["y"]) :=
  c5_normal_append_fifo_cap ("kavosh", "p") stC1 "y" (by decide)

/-- Helper: a space-free character list is never split. -/
theorem split_once_aux_of_not_mem (cs : List Char) (h : ' ' ∉ cs) :
    split_once_aux cs = none := by
  induction cs with
  | nil => rfl
  | cons c rest ih =>
      have hc : ¬ c = ' ' := fun hcc => h (by rw [hcc]; exact List.mem_cons_self _ _)
      have hr : ' ' ∉ rest := fun hm => h (List.mem_cons_of_mem _ hm)
      simp [split_once_aux, hc, ih hr]

/-- Helper: splitting at the first space returns everything before it and
everything after it. -/
theorem split_once_aux_append (a b : List Char) :
    ' ' ∉ a → split_once_aux (a ++ ' ' :: b) = some (a, b) := by
  induction a with
  | nil => intro _; simp [split_once_aux]
  | cons c rest ih =>
      intro h
      have hc : ¬ c = ' ' := fun hcc => h (by rw [hcc]; exact List.mem_cons_self _ _)
      have hr : ' ' ∉ rest := fun hm => h (List.mem_cons_of_mem _ hm)
      simp [split_once_aux, hc, ih hr]

/-- C7 counterexample: the line `"hello world"` has no parseable timestamp
(the token `"hello"` is not a timestamp), yet the worker forwards only
`"world"` — the unparseable first token is stripped, not treated as part
of a plain message.  A genuinely timestamped line behaves as claimed. -/
theorem c7_unparseable_prefix_stripped_cex :
    line_has_parseable_timestamp "hello world" = false ∧
    (v2_parse_line "hello world").2 = "world" ∧
    (v2_parse_line "hello world").2 ≠ "hello world" ∧
    line_has_parseable_timestamp "2024-01-01T00:00:00Z hello" = true ∧
    (v2_parse_line "2024-01-01T00:00:00Z hello").2 = "hello" := by
  refine ⟨by decide, by decide, by decide, by decide, by decide⟩

/-- C7 amended: the worker never validates the timestamp token.  Any line
containing a space is split at its first space — whatever stands before it
is consumed as the resumption timestamp and only the remainder is
forwarded — while a line with no space at all is forwarded whole; no line
is ever dropped (the parse is total and forwards exactly one message per
line). -/
theorem c7_split_forwarding :
    (∀ s : String, ' ' ∉ s.toList → v2_parse_line s = (none, s)) ∧
    (∀ a b : List Char, ' ' ∉ a →
      v2_parse_line (String.mk (a ++ ' ' :: b))
        = (some (String.mk a), String.mk b)) := by
  constructor
  · intro s h
    have hs : split_once_aux s.data = none :=
      split_once_aux_of_not_mem s.toList h
    simp [v2_parse_line, split_once, hs]
  · intro a b h
    have hs := split_once_aux_append a b h
    have htl : (String.mk (a ++ ' ' :: b)).toList = a ++ ' ' :: b := rfl
    simp [v2_parse_line, split_once, htl, hs]

/-- C7 witness: the forwarding facts evaluated on a space-free line and on
a split line. -/
theorem c7_witness :
    v2_parse_line "abc" = (none, "abc") ∧
    v2_parse_line (String.mk (['a'] ++ ' ' :: ['b', 'c']))
        = (some (String.mk ['a']), String.mk ['b', 'c']) :=
  ⟨c7_split_forwarding.1 "abc" (by decide),
   c7_split_forwarding.2 ['a'] ['b', 'c'] (by decide)⟩

/-- Helper: once the waiting flag is set, an idle run emits only heartbeat
comments, each more than the threshold after the previous emission. -/
theorem generate_idle_run_heartbeat_phase (threshold : Nat) (p : PodRef)
    (ts : List Nat) :
    ∀ ly : Nat,
    (∀ x ∈ generate_idle_run threshold (some p) ⟨ly, true⟩ ts,
        x.2 = FeedEvent.heartbeat) ∧
    List.Chain' (fun a b => threshold < b.1 - a.1)
      ((ly, FeedEvent.waiting)
        :: generate_idle_run threshold (some p) ⟨ly, true⟩ ts) := by
  induction ts with
  | nil =>
      intro ly
      exact ⟨by simp [generate_idle_run], by simp [generate_idle_run]⟩
  | cons t rest ih =>
      intro ly
      by_cases hgap : threshold < t - ly
      · have hstep : generate_empty_step threshold (some p) ⟨ly, true⟩ t
            = (⟨t, true⟩, some FeedEvent.heartbeat) := by
          simp [generate_empty_step, hgap]
        have hrun : generate_idle_run threshold (some p) ⟨ly, true⟩ (t :: rest)
            = (t, FeedEvent.heartbeat)
              :: generate_idle_run threshold (some p) ⟨t, true⟩ rest := by
          simp only [generate_idle_run, hstep]
        have ihx := ih t
        constructor
        · intro x hx
          rw [hrun] at hx
          rcases List.mem_cons.mp hx with h1 | h1
          · rw [h1]
          · exact ihx.1 x h1
        · rw [hrun, List.chain'_cons']
          constructor
          · intro b hb
            rw [List.head?_cons, Option.mem_some_iff] at hb
            rw [← hb]
            exact hgap
          · have h2 := ihx.2
            rw [List.chain'_cons'] at h2 ⊢
            exact ⟨fun b hb => h2.1 b hb, h2.2⟩
      · have hstep : generate_empty_step threshold (some p) ⟨ly, true⟩ t
            = (⟨ly, true⟩, none) := by
          simp [generate_empty_step, hgap]
        have hrun : generate_idle_run threshold (some p) ⟨ly, true⟩ (t :: rest)
            = generate_idle_run threshold (some p) ⟨ly, true⟩ rest := by
          simp only [generate_idle_run, hstep]
        rw [hrun]
        exact ih ly

/-- C8: on a feed connection whose session has a pod selected and whose
queue stays empty, `generate` emits exactly one waiting status event — the
very first emission of the idle period — and afterwards only heartbeat
comments, every consecutive pair of emissions more than 10 time units
apart.  The theorem is parameterised by the heartbeat threshold, which is
10 in `appv2.py`/`app.py` and 15 in `web-log.py`, both at least 10. -/
theorem c8_idle_feed_waiting_then_heartbeats (th : Nat) (hth : 10 ≤ th)
    (p : PodRef) (t0 t1 : Nat) (ts : List Nat) :
    ∃ rest,
      generate_idle_run th (some p) ⟨t0, false⟩ (t1 :: ts)
          = (t1, FeedEvent.waiting) :: rest ∧
      (∀ x ∈ rest, x.2 = FeedEvent.heartbeat) ∧
      List.Chain' (fun a b => 10 < b.1 - a.1)
        ((t1, FeedEvent.waiting) :: rest) := by
  have hstep : generate_empty_step th (some p) ⟨t0, false⟩ t1
      = (⟨t1, true⟩, some FeedEvent.waiting) := by
    simp [generate_empty_step]
  refine ⟨generate_idle_run th (some p) ⟨t1, true⟩ ts, ?_, ?_, ?_⟩
  · simp only [generate_idle_run, hstep]
  · exact (generate_idle_run_heartbeat_phase th p ts t1).1
  · exact ((generate_idle_run_heartbeat_phase th p ts t1).2).imp
      (fun a b hab => lt_of_le_of_lt hth hab)

/-- C8 witness: an idle run polled at times 1, 5 and 20 with threshold 10:
one waiting event, then heartbeats more than 10 apart. -/
theorem c8_witness :
    ∃ rest,
      generate_idle_run 10 (some ⟨"p", "kavosh"⟩) ⟨0, false⟩ (1 :: [5, 20])
          = (1, FeedEvent.waiting) :: rest ∧
      (∀ x ∈ rest, x.2 = FeedEvent.heartbeat) ∧
      List.Chain' (fun a b => 10 < b.1 - a.1)
        ((1, FeedEvent.waiting) :: rest) :=
  c8_idle_feed_waiting_then_heartbeats 10 (by decide) ⟨"p", "kavosh"⟩ 0 1 [5, 20]

/-- C9 amended: `stop()` is idempotent, and on a session with no active
worker it leaves the queue, the current-pod reference, the worker set and
the cache unchanged — but it is not a no-op: it raises the session's stop
signal, which any connected feed adapter observes by terminating its
polling loop (see the counterexample). -/
theorem c9_stop_idempotent_and_inactive_effects (st : AppState)
    (e e2 : Bool) :
    stop_log_streaming (stop_log_streaming st e) e2
        = stop_log_streaming st e ∧
    (st.session.stream_thread = none →
      (stop_log_streaming st e).session.log_queue = st.session.log_queue ∧
      (stop_log_streaming st e).session.current_pod
          = st.session.current_pod ∧
      (stop_log_streaming st e).session.stream_thread = none ∧
      (stop_log_streaming st e).activeWorkers = st.activeWorkers ∧
      (stop_log_streaming st e).cache = st.cache ∧
      (stop_log_streaming st e).session.stop_flag = true) := by
  obtain ⟨⟨pod, q, flag, th⟩, cache, aw, ng⟩ := st
  constructor
  · cases th with
    | none => simp [stop_log_streaming]
    | some g =>
        by_cases hg : g ∈ aw
        · cases e
          · simp [stop_log_streaming, hg]
          · simp [stop_log_streaming, hg, streamer_finally]
        · simp [stop_log_streaming, hg]
  · intro h
    simp only at h
    subst h
    simp [stop_log_streaming]

/-- C9 witness: the idempotence and preservation facts evaluated on the
concrete no-worker session. -/
theorem c9_witness :
    (stop_log_streaming (stop_log_streaming stC9 true) false
        = stop_log_streaming stC9 true) ∧
    ((stop_log_streaming stC9 true).session.log_queue
        = stC9.session.log_queue ∧
      (stop_log_streaming stC9 true).session.current_pod
          = stC9.session.current_pod ∧
      (stop_log_streaming stC9 true).session.stream_thread = none ∧
      (stop_log_streaming stC9 true).activeWorkers = stC9.activeWorkers ∧
      (stop_log_streaming stC9 true).cache = stC9.cache ∧
      (stop_log_streaming stC9 true).session.stop_flag = true) := by
  have h := c9_stop_idempotent_and_inactive_effects stC9 true false
  exact ⟨h.1, h.2 rfl⟩

/-- C10: in `app.py` every pod selection reads the shared Trailing Cache
entry for the pod (warm start) before `start_log_streaming` deletes it,
the delete happens before the new worker's first append, the resulting
entry is always built from only the lines appended since that stream
start (whatever the entry held before), equalling exactly those lines
while within the cap — and the interpretation of this operation trace
coincides with the embedded `select_pod`-then-worker run. -/
theorem c10_select_deletes_cache_before_appends (prev ls : List String) :
    (∀ pre suf : List CacheOp,
      select_cache_trace ls = pre ++ CacheOp.del :: suf →
      CacheOp.read ∈ pre ∧ ∀ op ∈ suf, op.is_append = true) ∧
    run_cache_ops prev (select_cache_trace ls) <:+ ls ∧
    (ls.length ≤ 1000 → run_cache_ops prev (select_cache_trace ls) = ls) ∧
    (∀ (st : AppState) (ns pod : String) (e : Bool),
      ns ∈ ALLOWED_NAMESPACES →
      (streamer_loop (ns, pod)
          (ok_or_fresh (select_pod st ns pod e)) ls).cache (ns, pod)
        = run_cache_ops (st.cache (ns, pod)) (select_cache_trace ls)) := by
  refine ⟨?_, ?_, ?_, ?_⟩
  · intro pre suf heq
    cases pre with
    | nil => simp [select_cache_trace] at heq
    | cons p1 pre2 =>
        simp only [select_cache_trace, List.cons_append,
          List.cons.injEq] at heq
        obtain ⟨hp1, heq2⟩ := heq
        cases pre2 with
        | nil =>
            simp only [List.nil_append, List.cons.injEq] at heq2
            obtain ⟨-, hsuf⟩ := heq2
            subst hp1
            refine ⟨List.mem_cons_self _ _, ?_⟩
            intro op hop
            rw [← hsuf] at hop
            obtain ⟨l, -, hl⟩ := List.mem_map.mp hop
            rw [← hl]
            rfl
        | cons p2 pre3 =>
            simp only [List.cons_append, List.cons.injEq] at heq2
            obtain ⟨-, heq3⟩ := heq2
            exfalso
            have hmem : CacheOp.del ∈ ls.map CacheOp.append := by
              rw [heq3]
              exact List.mem_append_right _ (List.mem_cons_self _ _)
            obtain ⟨l, -, hl⟩ := List.mem_map.mp hmem
            simp at hl
  · simp only [select_cache_trace, run_cache_ops, run_cache_ops_map_append]
    simpa using foldl_trim_suffix ls [] [] List.nil_suffix
  · intro h1000
    simp only [select_cache_trace, run_cache_ops, run_cache_ops_map_append]
    simpa using foldl_trim_of_le ls [] (by simpa using h1000)
  · intro st ns pod e hns
    have h1 : (ok_or_fresh (select_pod st ns pod e)).session.stop_flag
        = false := by
      simp [select_pod, hns, ok_or_fresh, start_log_streaming]
    have h2 : (ok_or_fresh (select_pod st ns pod e)).cache (ns, pod)
        = [] := by
      simp [select_pod, hns, ok_or_fresh, start_log_streaming]
    have hs := streamer_loop_spec (ns, pod) ls
      (ok_or_fresh (select_pod st ns pod e)) h1
    rw [hs.2.2.2.2.2, h2]
    simp only [select_cache_trace, run_cache_ops, run_cache_ops_map_append]

/-- C10 witness: the trace facts evaluated on a concrete two-line worker
run over a previously populated cache entry and session. -/
theorem c10_witness :
    CacheOp.read ∈ [CacheOp.read] ∧
    run_cache_ops ["old"] (select_cache_trace ["l1", "l2"]) = ["l1", "l2"] ∧
    (streamer_loop ("kavosh", "p")
        (ok_or_fresh (select_pod stC1 "kavosh" "p" true))
        ["l1", "l2"]).cache ("kavosh", "p")
      = run_cache_ops (stC1.cache ("kavosh", "p"))
          (select_cache_trace ["l1", "l2"]) := by
  have h := c10_select_deletes_cache_before_appends ["old"] ["l1", "l2"]
  exact ⟨(h.1 [CacheOp.read] (List.map CacheOp.append ["l1", "l2"]) rfl).1,
    h.2.2.1 (by decide), h.2.2.2 stC1 "kavosh" "p" true (by decide)⟩
